import Mathlib

/-!
Verification of the `gm` commit-message CLI against its design notes.

The embedding below translates the TypeScript sources (`src/text.ts`,
`index.ts`, the commit-message module) into Lean. JavaScript strings are
modelled as `List Char`; the external OpenAI client is modelled as a record
of fallible calls; the external commitlint engine is modelled from the
design notes where marked.
-/

namespace GM

/-- Texts model JavaScript strings as lists of characters. -/
abbrev Text := List Char

deriving instance DecidableEq for Except

/-- The double-quote character. -/
def dquote : Char := Char.ofNat 34

/-- The backtick character. -/
def backtick : Char := Char.ofNat 96

/-- Membership of the JavaScript regex class used by `normalizeMessage`
(`\s`), restricted to its ASCII members, which are the only ones the
program's own string constants contain. -/
def isJsWs (c : Char) : Bool :=
  c == ' ' || c == '\t' || c == '\n' || c == '\r' || c == '\x0b' || c == '\x0c'

/-- One pass of `raw.replace(/\s+/g, " ")`: every maximal run of whitespace
characters becomes a single space. -/
def collapseWs : Text → Text
  | [] => []
  | [c] => if isJsWs c then [' '] else [c]
  | c1 :: c2 :: rest =>
    if isJsWs c1 then
      if isJsWs c2 then collapseWs (c2 :: rest)
      else ' ' :: collapseWs (c2 :: rest)
    else c1 :: collapseWs (c2 :: rest)

/-- JavaScript `String.prototype.trim`: drop whitespace from both ends. -/
def jsTrim (l : Text) : Text :=
  ((l.dropWhile isJsWs).reverse.dropWhile isJsWs).reverse

/-- `normalizeMessage` from `src/text.ts`: collapse whitespace runs, then trim. -/
def normalizeMessage (raw : Text) : Text :=
  jsTrim (collapseWs raw)

/-- Strip a leading run and a trailing run of backtick characters
(`.replace(/^`+|`+$/g, "")` in `cleanupModelMessage`). -/
def stripBackticks (l : Text) : Text :=
  ((l.dropWhile (· == backtick)).reverse.dropWhile (· == backtick)).reverse

/-- Strip one leading and one trailing double-quote character
(`.replace(/^"|"$/g, "")` in `cleanupModelMessage`). -/
def stripQuote (l : Text) : Text :=
  let l1 := match l with
    | c :: rest => if c == dquote then rest else l
    | [] => l
  match l1.reverse with
  | c :: rest => if c == dquote then rest.reverse else l1
  | [] => l1

/-- `cleanupModelMessage` from `src/text.ts`: normalize, strip backtick runs,
strip one pair of double quotes. -/
def cleanupModelMessage (raw : Text) : Text :=
  stripQuote (stripBackticks (normalizeMessage raw))

/-- The literal marker `truncate` appends after slicing. -/
def truncationMarker : Text := ('\n' :: '\n' :: String.toList "[truncated]")

/-- `truncate` from `src/text.ts` and `index.ts`: texts within the limit pass
through unchanged; longer texts are sliced to `maxChars` characters and the
literal marker is appended. -/
def truncate (text : Text) (maxChars : Nat) : Text :=
  if text.length ≤ maxChars then text else text.take maxChars ++ truncationMarker

/-- The ten status kinds of `index.ts` (`StatusKind`). -/
inductive StatusKind where
  | A | M | D | R | C | U | T | untracked | ignored | other
deriving DecidableEq, Repr

/-- The character a status kind stands for in a short-status code (`"?"` and
`"!"` are themselves kinds in the source; `other` has no code character). -/
def kindChar : StatusKind → Char
  | .A => 'A'
  | .M => 'M'
  | .D => 'D'
  | .R => 'R'
  | .C => 'C'
  | .U => 'U'
  | .T => 'T'
  | .untracked => '?'
  | .ignored => '!'
  | .other => ' '

/-- The fixed scan order of `statusKindsFromCode`. -/
def preferredOrder : List StatusKind :=
  [.A, .M, .D, .R, .C, .U, .T]

/-- The fixed priority order of `detectStatusKind`. -/
def priorityOrder : List StatusKind :=
  [.D, .U, .M, .A, .R, .C, .T, .untracked, .ignored, .other]

/-- `statusKindsFromCode` from `index.ts`: the sentinel codes `??` and `!!`
are special-cased; otherwise the non-blank characters are scanned against the
fixed preferred order and matches collected in that order; an empty result
folds to `[other]`. -/
def statusKindsFromCode (code : Text) : List StatusKind :=
  if code = ['?', '?'] then [.untracked]
  else if code = ['!', '!'] then [.ignored]
  else
    let kinds := preferredOrder.filter
      (fun k => decide (kindChar k ∈ code.filter (fun c => decide (c ≠ ' '))))
    if kinds = [] then [.other] else kinds

/-- `detectStatusKind` from `index.ts`: return the first kind of the priority
order that the classified kinds contain, falling back to `other`. -/
def detectStatusKind (code : Text) : StatusKind :=
  match priorityOrder.find? (fun k => decide (k ∈ statusKindsFromCode code)) with
  | some k => k
  | none => .other

/-- The shape of the external commitlint rule source as read by `index.ts`:
`rules["header-max-length"][2]` when present and a number, and
`rules["type-enum"][2]` when present and an array. A malformed or absent
source leaves a field `none`. -/
structure RuleSource where
  headerMaxLength : Option Nat
  typeEnum : Option (List Text)
deriving DecidableEq

/-- The fallback type list hardcoded in `index.ts` (as the comma-joined
fallback string), split into its tokens. -/
def fallbackTypes : List Text :=
  ["build", "chore", "ci", "docs", "feat", "fix", "perf", "refactor",
   "revert", "style", "test"].map String.toList

/-- The hardcoded fallback string for `CONVENTIONAL_TYPES` in `index.ts`. -/
def fallbackTypesText : Text :=
  String.toList "build, chore, ci, docs, feat, fix, perf, refactor, revert, style, test"

/-- Join texts with a separator (JavaScript `Array.prototype.join`). -/
def joinSep (sep : Text) : List Text → Text
  | [] => []
  | [t] => t
  | t :: rest => t ++ sep ++ joinSep sep rest

/-- `HEADER_MAX_LENGTH` from `index.ts`, as a function of the loaded rule
source: the configured number when present, else the hardcoded fallback 100. -/
def HEADER_MAX_LENGTH (src : RuleSource) : Nat :=
  src.headerMaxLength.getD 100

/-- `CONVENTIONAL_TYPES` from `index.ts`, as a function of the loaded rule
source: the comma-joined configured array when present, else the hardcoded
fallback string. -/
def CONVENTIONAL_TYPES (src : RuleSource) : Text :=
  match src.typeEnum with
  | some ts => joinSep (String.toList ", ") ts
  | none => fallbackTypesText

/-- The leading type token of a conventional-commit header: the characters
before the first `(`, `!` or `:`. -/
def parseType (message : Text) : Text :=
  message.takeWhile (fun c => decide (c ≠ '(' ∧ c ≠ ':' ∧ c ≠ '!'))

/-- Modelled from the spec: the external `@commitlint/lint` engine is not
part of this repository; per the design notes it checks a candidate against
the allowed-type set and the maximum header length carried by the rule set it
is given, one descriptive violation string per violated rule, and applies no
rule that the supplied rule source does not carry. -/
def lintCommitMessage (message : Text) (rules : RuleSource) : List Text :=
  (match rules.typeEnum with
   | some ts =>
     if parseType message ∈ ts then []
     else [String.toList "type must be one of the configured values"]
   | none => []) ++
  (match rules.headerMaxLength with
   | some m =>
     if message.length ≤ m then []
     else [String.toList "header must not be longer than the configured maximum"]
   | none => [])

/-- Modelled from the spec: the well-formed external
`@commitlint/config-conventional` rule source loaded at startup, carrying
header-max-length 100 and the conventional type enumeration. -/
def COMMITLINT_RULES : RuleSource :=
  ⟨some 100, some fallbackTypes⟩

/-- A malformed or absent external rule source: neither rule is present. -/
def emptyRuleSource : RuleSource := ⟨none, none⟩

/-- The fallback grammar of the design notes as a rule source: max length
100 and the hardcoded fallback type set. -/
def fallbackRuleSource : RuleSource := ⟨some 100, some fallbackTypes⟩

/-- `validateConventionalCommit` from `index.ts` / the commit-message module:
the empty message short-circuits to a single violation; otherwise the raw
loaded rule source is handed to the lint engine. -/
def validateConventionalCommit (rules : RuleSource) (message : Text) : List Text :=
  if message = [] then [String.toList "message is empty"]
  else lintCommitMessage message rules

/-- Message roles of the conversation histories. -/
inductive Role where
  | system | user | assistant
deriving DecidableEq, Repr

/-- One role-tagged conversation message. -/
structure Msg where
  role : Role
  content : Text
deriving DecidableEq

/-- The CLI languages. -/
inductive Lang where
  | en | zh
deriving DecidableEq, Repr

/-- The external OpenAI client, as the generation loop sees it: a structured
`responses.create` call and a `chat.completions.create` call, each taking the
corresponding conversation history and either raising or returning a
possibly-absent output text. -/
structure Generator where
  responsesCreate : List Msg → Except Text (Option Text)
  chatCreate : List Msg → Except Text (Option Text)

/-- `buildSystemPrompt` from the commit-message module: the fixed persona
sentences joined with single spaces, embedding the allowed types, the header
limit and the subject-language instruction. -/
def buildSystemPrompt (src : RuleSource) (lang : Lang) : Text :=
  joinSep [' ']
    [String.toList "You write git commit messages that MUST pass @commitlint/config-conventional.",
     String.toList "Return exactly one single-line message.",
     String.toList "Format: <type>(<scope>): <subject> or <type>: <subject>.",
     String.toList "Allowed types: " ++ CONVENTIONAL_TYPES src ++ ['.'],
     String.toList "Header length must be <= " ++ String.toList (toString (HEADER_MAX_LENGTH src)) ++ String.toList " characters.",
     String.toList "Use lower-case type/scope and imperative subject.",
     (match lang with
      | .zh => String.toList "Write the subject in Simplified Chinese."
      | .en => String.toList "Write the subject in English."),
     String.toList "Do not end subject with a period.",
     String.toList "No markdown, no quotes, no explanation."]

/-- The user prompt embedding the (already truncated) change payload. -/
def userPrompt (diffText : Text) : Text :=
  String.toList "Generate one commit message for this git change set:\n\n" ++ diffText

/-- The seeded conversation history: system prompt then user prompt. -/
def initialState (src : RuleSource) (diffText : Text) (lang : Lang) : List Msg :=
  [⟨.system, buildSystemPrompt src lang⟩, ⟨.user, userPrompt diffText⟩]

/-- The retry instruction built after a rejected candidate, embedding the
previous candidate (or the `(empty)` placeholder) and the bullet-joined
violation list. -/
def retryPrompt (candidate : Text) (issues : List Text) : Text :=
  String.toList "Your previous output was invalid:\n" ++
  (if candidate = [] then String.toList "(empty)" else candidate) ++
  String.toList "\n\nValidation errors:\n" ++
  joinSep ['\n'] (issues.map (fun issue => String.toList "- " ++ issue)) ++
  String.toList "\n\nReturn exactly one corrected commit header."

/-- The two messages pushed onto a conversation history after a rejected
candidate: the assistant's candidate (or placeholder) and the retry
instruction. -/
def appendRetry (msgs : List Msg) (candidate : Text) (issues : List Text) : List Msg :=
  msgs ++
    [⟨.assistant, if candidate = [] then String.toList "(empty)" else candidate⟩,
     ⟨.user, retryPrompt candidate issues⟩]

/-- One attempt's candidate production: try the structured call, swallow its
exception or empty output, and fall back to the chat call (whose exception
propagates); the resulting candidate is the cleaned output, the empty text if
neither path produced one. -/
def attemptCandidate (g : Generator) (input msgs : List Msg) : Except Text Text :=
  let fromResponses : Text :=
    match g.responsesCreate input with
    | .ok out => cleanupModelMessage (out.getD [])
    | .error _ => []
  if fromResponses = [] then
    match g.chatCreate msgs with
    | .ok out => .ok (cleanupModelMessage (out.getD []))
    | .error e => .error e
  else .ok fromResponses

/-- The outcome of one generation attempt: acceptance of a candidate, or
rejection carrying the two grown conversation histories. -/
inductive StepResult where
  | accepted (candidate : Text)
  | rejected (input msgs : List Msg)
deriving DecidableEq

/-- One iteration of the generation loop's body: produce a candidate,
validate it, and either accept it or grow both histories by the assistant
candidate and the retry instruction. -/
def runAttempt (g : Generator) (rules : RuleSource) (input msgs : List Msg) :
    Except Text StepResult :=
  match attemptCandidate g input msgs with
  | .error e => .error e
  | .ok candidate =>
    let issues := validateConventionalCommit rules candidate
    if issues = [] then .ok (.accepted candidate)
    else .ok (.rejected (appendRetry input candidate issues) (appendRetry msgs candidate issues))

/-- `maxAttempts` from the commit-message module. -/
def maxAttempts : Nat := 3

/-- The terminal exhaustion error message thrown after the attempt budget is
spent; it embeds `maxAttempts`. -/
def exhaustedMessage : Text :=
  String.toList
    ("Model could not produce a valid @commitlint/config-conventional message after "
      ++ toString maxAttempts ++ " attempts.")

/-- The bounded attempt loop of `generateCommitMessage`, with the remaining
fuel and the count of attempts already started made explicit; the result
pairs the loop's outcome with the total number of attempts made. -/
def generateLoop (g : Generator) (rules : RuleSource) :
    Nat → Nat → List Msg → List Msg → Except Text Text × Nat
  | 0, used, _, _ => (.error exhaustedMessage, used)
  | fuel + 1, used, input, msgs =>
    match runAttempt g rules input msgs with
    | .error e => (.error e, used + 1)
    | .ok (.accepted candidate) => (.ok candidate, used + 1)
    | .ok (.rejected input2 msgs2) => generateLoop g rules fuel (used + 1) input2 msgs2

/-- `generateCommitMessage` from the commit-message module: seed both
conversation histories with the system and user prompts and run the attempt
loop with the budget of `maxAttempts`; the second component counts the
attempts made. -/
def generateCommitMessage (g : Generator) (rules : RuleSource) (diffText : Text)
    (lang : Lang) : Except Text Text × Nat :=
  generateLoop g rules maxAttempts 0
    (initialState rules diffText lang) (initialState rules diffText lang)

/-- `DIFF_CHAR_LIMIT` from `index.ts`. -/
def DIFF_CHAR_LIMIT : Nat := 20000

/-- JavaScript `x || "(empty)"` on a trimmed diff: the empty text is replaced
by the placeholder. -/
def orEmpty (t : Text) : Text :=
  if t = [] then String.toList "(empty)" else t

/-- The assembled status-plus-diff text of `main` in `index.ts`, before
truncation: the section headers and the trimmed outputs joined by newlines. -/
def assembledDiffText (statusOut stagedOut unstagedOut : Text) : Text :=
  joinSep ['\n']
    [String.toList "## git status --short",
     jsTrim statusOut,
     [],
     String.toList "## git diff --cached",
     orEmpty (jsTrim stagedOut),
     [],
     String.toList "## git diff",
     orEmpty (jsTrim unstagedOut)]

/-- The diff payload `main` transmits to the generator: the assembled text
truncated at `DIFF_CHAR_LIMIT`. -/
def buildDiffPayload (statusOut stagedOut unstagedOut : Text) : Text :=
  truncate (assembledDiffText statusOut stagedOut unstagedOut) DIFF_CHAR_LIMIT

/-- A generator stub that never produces usable output: the structured call
resolves with an empty output text and the chat call resolves with a null
content, so every attempt's candidate is the empty text. -/
def badGen : Generator :=
  ⟨fun _ => .ok (some []), fun _ => .ok none⟩

/-- A generator stub that produces a valid candidate only once both
histories carry two failed attempts (six messages): attempts 1 and 2 yield
the empty candidate, attempt 3 yields a conforming header. -/
def gen3 : Generator :=
  ⟨fun input =>
      .ok (some (if 6 ≤ input.length then String.toList "feat: add retry loop" else [])),
   fun _ => .ok none⟩

/-- A generator stub whose structured call always raises and whose chat call
resolves with a null content. -/
def noOutputGen : Generator :=
  ⟨fun _ => .error (String.toList "responses endpoint unsupported"),
   fun _ => .ok none⟩

/-- A generator stub whose structured call always yields a conforming
header. -/
def okGen : Generator :=
  ⟨fun _ => .ok (some (String.toList "feat: add retry loop")),
   fun _ => .ok none⟩

/-- The seeded history of the convergence scenario run on `gen3`. -/
def w4s0 : List Msg := initialState COMMITLINT_RULES (String.toList "d") Lang.en

/-- The history of the convergence scenario after its first failed attempt. -/
def w4s1 : List Msg := appendRetry w4s0 [] (validateConventionalCommit COMMITLINT_RULES [])

/-- The history of the convergence scenario after its second failed attempt. -/
def w4s2 : List Msg := appendRetry w4s1 [] (validateConventionalCommit COMMITLINT_RULES [])

/-- A concrete oversized unstaged diff: 20,100 copies of `a`. -/
def bigUnstaged : Text := List.replicate 20100 'a'

/-!
Theorems. Helper lemmas come first, then one theorem per claim with its
witness or counterexample.
-/

/-- Every status kind occurs in the priority order of `detectStatusKind`. -/
lemma mem_priorityOrder (k : StatusKind) : k ∈ priorityOrder := by
  cases k <;> decide

/-- `statusKindsFromCode` never returns the empty list. -/
lemma statusKinds_ne_nil (code : Text) : statusKindsFromCode code ≠ [] := by
  simp only [statusKindsFromCode]
  split_ifs with h1 h2 h3
  · simp
  · simp
  · simp
  · exact h3

/-- The priority scan of `detectStatusKind` always finds a kind. -/
lemma find_priority_isSome (code : Text) :
    (priorityOrder.find? (fun k => decide (k ∈ statusKindsFromCode code))).isSome := by
  rcases List.exists_mem_of_ne_nil _ (statusKinds_ne_nil code) with ⟨k, hk⟩
  cases hfind : priorityOrder.find? (fun k => decide (k ∈ statusKindsFromCode code)) with
  | some a => rfl
  | none =>
    exfalso
    have := List.find?_eq_none.1 hfind k (mem_priorityOrder k)
    simp [hk] at this

/-- C6: truncation is idempotent: for every text `s` and every positive
limit `n`, `truncate (truncate s n) n = truncate s n`. -/
theorem c6_truncate_idempotent (s : Text) (n : Nat) (h : 0 < n) :
    truncate (truncate s n) n = truncate s n := by
  by_cases hle : s.length ≤ n
  · simp [truncate, hle]
  · have hmark : truncationMarker.length = 13 := by decide
    have htake : (s.take n).length = n := by
      simp only [List.length_take]
      omega
    have hnot : ¬ ((s.take n ++ truncationMarker).length ≤ n) := by
      simp only [List.length_append, htake, hmark]
      omega
    unfold truncate
    rw [if_neg hle, if_neg hnot]
    congr 1
    have hleft := List.take_left (s.take n) truncationMarker
    rwa [htake] at hleft

/-- Witness for C6 at the text `abcdefgh` and the positive limit 3. -/
theorem c6_witness :
    0 < 3 ∧
    truncate (truncate (String.toList "abcdefgh") 3) 3 =
      truncate (String.toList "abcdefgh") 3 :=
  ⟨by decide, c6_truncate_idempotent (String.toList "abcdefgh") 3 (by decide)⟩

/-- C10: `cleanupModelMessage` strips wrapping asymmetrically: a lone leading
double quote is removed with no trailing one present, and likewise a lone
trailing one. -/
theorem c10_cleanup_asymmetric :
    cleanupModelMessage (String.toList "\"feat: x") = String.toList "feat: x" ∧
    cleanupModelMessage (String.toList "fix: y\"") = String.toList "fix: y" := by
  decide

/-- C8: `statusKindsFromCode` maps `??` to exactly `[untracked]` and `!!` to
exactly `[ignored]`; any two-character code containing both `A` and `M`
yields `[A, M]` in that order; any non-sentinel code whose non-blank
characters match no scanned kind yields exactly `[other]`; every matching
kind of a non-sentinel code is collected; and the result is always a sublist
of the fixed scan order `A, M, D, R, C, U, T` or one of the three singleton
fallbacks. -/
theorem c8_classify (c1 c2 : Char) :
    statusKindsFromCode ['?', '?'] = [.untracked] ∧
    statusKindsFromCode ['!', '!'] = [.ignored] ∧
    ('A' ∈ [c1, c2] → 'M' ∈ [c1, c2] → statusKindsFromCode [c1, c2] = [.A, .M]) ∧
    ((∀ k ∈ preferredOrder, kindChar k ∉ [c1, c2]) → [c1, c2] ≠ ['?', '?'] →
      [c1, c2] ≠ ['!', '!'] → statusKindsFromCode [c1, c2] = [.other]) ∧
    (∀ k ∈ preferredOrder, [c1, c2] ≠ ['?', '?'] → [c1, c2] ≠ ['!', '!'] →
      kindChar k ∈ [c1, c2] → k ∈ statusKindsFromCode [c1, c2]) ∧
    ((statusKindsFromCode [c1, c2]).Sublist preferredOrder ∨
      statusKindsFromCode [c1, c2] ∈ [[.untracked], [.ignored], [.other]]) := by
  refine ⟨by decide, by decide, ?_, ?_, ?_, ?_⟩
  · intro hA hM
    simp only [List.mem_cons, List.not_mem_nil, or_false] at hA hM
    rcases hA with hA | hA <;> rcases hM with hM | hM
    · exact absurd (hA.trans hM.symm) (by decide)
    · subst hA; subst hM; decide
    · subst hA; subst hM; decide
    · exact absurd (hA.trans hM.symm) (by decide)
  · intro hnone hq hb
    simp only [statusKindsFromCode, if_neg hq, if_neg hb]
    have hf : preferredOrder.filter
        (fun k => decide (kindChar k ∈ ([c1, c2]).filter (fun c => decide (c ≠ ' ')))) = [] := by
      rw [List.filter_eq_nil_iff]
      intro k hk
      simp only [decide_eq_true_eq]
      intro hmem
      exact hnone k hk (List.mem_of_mem_filter hmem)
    rw [hf]
    simp
  · intro k hk hq hb hmem
    simp only [statusKindsFromCode, if_neg hq, if_neg hb]
    have hk' : k = .A ∨ k = .M ∨ k = .D ∨ k = .R ∨ k = .C ∨ k = .U ∨ k = .T := by
      simpa [preferredOrder] using hk
    have hin : k ∈ preferredOrder.filter
        (fun k => decide (kindChar k ∈ ([c1, c2]).filter (fun c => decide (c ≠ ' ')))) := by
      refine List.mem_filter.2 ⟨hk, ?_⟩
      simp only [decide_eq_true_eq]
      refine List.mem_filter.2 ⟨hmem, ?_⟩
      rcases hk' with rfl | rfl | rfl | rfl | rfl | rfl | rfl <;> decide
    rw [if_neg (List.ne_nil_of_mem hin)]
    exact hin
  · simp only [statusKindsFromCode]
    split_ifs with h1 h2 h3
    · right; decide
    · right; decide
    · right; decide
    · left; exact List.filter_sublist _

/-- Witness for C8: the codes `MA` and `AM` both classify to `[A, M]`. -/
theorem c8_witness :
    statusKindsFromCode ['M', 'A'] = [.A, .M] ∧
    statusKindsFromCode ['A', 'M'] = [.A, .M] :=
  ⟨(c8_classify 'M' 'A').2.2.1 (by decide) (by decide),
   (c8_classify 'A' 'M').2.2.1 (by decide) (by decide)⟩

/-- C9: for every two-character status code the classification is non-empty,
the dominant kind returned by `detectStatusKind` is one of the classified
kinds, and the priority scan always finds a kind, so the final fallback
return of `other` after the scan is unreachable. -/
theorem c9_detect_within_kinds (c1 c2 : Char) :
    statusKindsFromCode [c1, c2] ≠ [] ∧
    detectStatusKind [c1, c2] ∈ statusKindsFromCode [c1, c2] ∧
    (priorityOrder.find? (fun k => decide (k ∈ statusKindsFromCode [c1, c2]))).isSome := by
  refine ⟨statusKinds_ne_nil _, ?_, find_priority_isSome _⟩
  unfold detectStatusKind
  cases hfind : priorityOrder.find? (fun k => decide (k ∈ statusKindsFromCode [c1, c2])) with
  | some k => simpa using List.find?_some hfind
  | none =>
    exfalso
    have hs := find_priority_isSome [c1, c2]
    rw [hfind] at hs
    simp at hs

/-- Witness for C9 at the code `DM`. -/
theorem c9_witness :
    statusKindsFromCode ['D', 'M'] ≠ [] ∧
    detectStatusKind ['D', 'M'] ∈ statusKindsFromCode ['D', 'M'] ∧
    (priorityOrder.find? (fun k => decide (k ∈ statusKindsFromCode ['D', 'M']))).isSome :=
  c9_detect_within_kinds 'D' 'M'

/-- C7: the validator applied to the empty message returns exactly the one
violation `message is empty`, and one loop attempt accepts a candidate if and
only if its produced candidate's violation sequence is empty. -/
theorem c7_empty_and_acceptance (rules : RuleSource) :
    validateConventionalCommit rules [] = [String.toList "message is empty"] ∧
    ∀ (g : Generator) (input msgs : List Msg) (c : Text),
      runAttempt g rules input msgs = .ok (.accepted c) ↔
        (attemptCandidate g input msgs = .ok c ∧
          validateConventionalCommit rules c = []) := by
  refine ⟨by simp [validateConventionalCommit], ?_⟩
  intro g input msgs c
  constructor
  · intro h
    unfold runAttempt at h
    cases hac : attemptCandidate g input msgs with
    | error e => rw [hac] at h; exact absurd h (by simp)
    | ok cand =>
      rw [hac] at h
      by_cases hv : validateConventionalCommit rules cand = []
      · simp [hv] at h
        subst h
        exact ⟨rfl, hv⟩
      · simp [hv] at h
  · rintro ⟨hac, hv⟩
    unfold runAttempt
    rw [hac]
    simp [hv]

/-- Witness for C7: a generator yielding a conforming header is accepted by
one loop attempt under the conventional rules. -/
theorem c7_witness :
    runAttempt okGen COMMITLINT_RULES [] [] =
      .ok (.accepted (String.toList "feat: add retry loop")) :=
  ((c7_empty_and_acceptance COMMITLINT_RULES).2 okGen [] []
    (String.toList "feat: add retry loop")).2 ⟨by decide, by decide⟩

/-- C5: within one attempt the structured call is consulted first; its
exception or empty output is swallowed and the chat call is invoked as the
fallback; when the structured call yields a non-empty cleaned output that
output is the candidate; and when both paths yield nothing the attempt's
candidate is the empty text. -/
theorem c5_structured_then_chat (g : Generator) (input msgs : List Msg) :
    (∀ e, g.responsesCreate input = .error e →
      attemptCandidate g input msgs =
        (match g.chatCreate msgs with
         | .ok out => .ok (cleanupModelMessage (out.getD []))
         | .error e2 => .error e2)) ∧
    (∀ out, g.responsesCreate input = .ok out → cleanupModelMessage (out.getD []) = [] →
      attemptCandidate g input msgs =
        (match g.chatCreate msgs with
         | .ok out2 => .ok (cleanupModelMessage (out2.getD []))
         | .error e2 => .error e2)) ∧
    (∀ out, g.responsesCreate input = .ok out → cleanupModelMessage (out.getD []) ≠ [] →
      attemptCandidate g input msgs = .ok (cleanupModelMessage (out.getD []))) ∧
    ((∀ out, g.responsesCreate input = .ok out → cleanupModelMessage (out.getD []) = []) →
      g.chatCreate msgs = .ok none →
      attemptCandidate g input msgs = .ok []) := by
  refine ⟨?_, ?_, ?_, ?_⟩
  · intro e he
    unfold attemptCandidate
    rw [he]
    rfl
  · intro out hout hclean
    unfold attemptCandidate
    rw [hout]
    simp [hclean]
  · intro out hout hclean
    unfold attemptCandidate
    rw [hout]
    simp [hclean]
  · intro hresp hchat
    unfold attemptCandidate
    cases hout : g.responsesCreate input with
    | error e => rw [hchat]; rfl
    | ok out =>
      have := hresp out hout
      simp only [this, if_pos rfl, hchat]
      rfl

/-- Witness for C5: a generator whose structured call raises and whose chat
call yields a null content produces the empty candidate. -/
theorem c5_witness : attemptCandidate noOutputGen [] [] = .ok [] :=
  (c5_structured_then_chat noOutputGen [] []).2.2.2
    (fun out h => by simp [noOutputGen] at h) rfl

/-- A rejected attempt advances the loop: both histories grow by the
assistant candidate and the retry instruction, fuel falls and the attempt
count rises. -/
lemma generateLoop_step_rejected (g : Generator) (rules : RuleSource)
    (fuel used : Nat) (input msgs : List Msg) (c : Text)
    (hc : attemptCandidate g input msgs = .ok c)
    (hv : validateConventionalCommit rules c ≠ []) :
    generateLoop g rules (fuel + 1) used input msgs =
      generateLoop g rules fuel (used + 1)
        (appendRetry input c (validateConventionalCommit rules c))
        (appendRetry msgs c (validateConventionalCommit rules c)) := by
  simp [generateLoop, runAttempt, hc, hv]

/-- An accepted attempt ends the loop with the candidate and one more
attempt counted. -/
lemma generateLoop_step_accepted (g : Generator) (rules : RuleSource)
    (fuel used : Nat) (input msgs : List Msg) (c : Text)
    (hc : attemptCandidate g input msgs = .ok c)
    (hv : validateConventionalCommit rules c = []) :
    generateLoop g rules (fuel + 1) used input msgs = (.ok c, used + 1) := by
  simp [generateLoop, runAttempt, hc, hv]

/-- Under a generator whose every attempt produces an invalid candidate, the
loop spends all its fuel and reports exhaustion after `used + fuel`
attempts. -/
lemma generateLoop_exhausts (g : Generator) (rules : RuleSource)
    (h : ∀ input msgs, ∃ c, attemptCandidate g input msgs = .ok c ∧
      validateConventionalCommit rules c ≠ []) :
    ∀ (fuel used : Nat) (input msgs : List Msg),
      generateLoop g rules fuel used input msgs = (.error exhaustedMessage, used + fuel) := by
  intro fuel
  induction fuel with
  | zero => intro used input msgs; rfl
  | succ n ih =>
    intro used input msgs
    obtain ⟨c, hc, hv⟩ := h input msgs
    rw [generateLoop_step_rejected g rules n used input msgs c hc hv, ih]
    congr 1
    omega

/-- C3: for every generator that yields an invalid candidate on every
attempt, the generation loop raises the exhaustion error after exactly 3
attempts — never starting a 4th — and the terminal error message names the
attempt count 3. -/
theorem c3_exhaustion (g : Generator) (rules : RuleSource)
    (h : ∀ input msgs, ∃ c, attemptCandidate g input msgs = .ok c ∧
      validateConventionalCommit rules c ≠ [])
    (diffText : Text) (lang : Lang) :
    generateCommitMessage g rules diffText lang = (.error exhaustedMessage, 3) ∧
    exhaustedMessage = String.toList
      "Model could not produce a valid @commitlint/config-conventional message after 3 attempts." := by
  refine ⟨?_, by decide⟩
  unfold generateCommitMessage
  rw [generateLoop_exhausts g rules h maxAttempts 0]
  rfl

/-- Witness for C3: the always-empty generator exhausts the loop in 3
attempts under the conventional rules. -/
theorem c3_witness :
    generateCommitMessage badGen COMMITLINT_RULES (String.toList "d") Lang.en =
      (.error exhaustedMessage, 3) ∧
    exhaustedMessage = String.toList
      "Model could not produce a valid @commitlint/config-conventional message after 3 attempts." :=
  c3_exhaustion badGen COMMITLINT_RULES
    (fun input msgs => ⟨[], rfl, by decide⟩) (String.toList "d") Lang.en

/-- C4: for every generator that yields an invalid candidate on attempts 1
and 2 and a valid candidate on attempt 3, the loop returns that valid
candidate after exactly 3 attempts, and each failed attempt grows the
conversation history by exactly 2 messages. -/
theorem c4_third_attempt_converges (g : Generator) (rules : RuleSource)
    (diffText : Text) (lang : Lang) (c1 c2 c3 : Text) (s0 s1 s2 : List Msg)
    (hs0 : s0 = initialState rules diffText lang)
    (h1 : attemptCandidate g s0 s0 = .ok c1)
    (hv1 : validateConventionalCommit rules c1 ≠ [])
    (hs1 : s1 = appendRetry s0 c1 (validateConventionalCommit rules c1))
    (h2 : attemptCandidate g s1 s1 = .ok c2)
    (hv2 : validateConventionalCommit rules c2 ≠ [])
    (hs2 : s2 = appendRetry s1 c2 (validateConventionalCommit rules c2))
    (h3 : attemptCandidate g s2 s2 = .ok c3)
    (hv3 : validateConventionalCommit rules c3 = []) :
    generateCommitMessage g rules diffText lang = (.ok c3, 3) ∧
    s1.length = s0.length + 2 ∧ s2.length = s1.length + 2 := by
  refine ⟨?_, ?_, ?_⟩
  · have hstart : generateCommitMessage g rules diffText lang =
        generateLoop g rules 3 0 s0 s0 := by
      rw [hs0]; rfl
    rw [hstart,
      generateLoop_step_rejected g rules 2 0 s0 s0 c1 h1 hv1, ← hs1,
      generateLoop_step_rejected g rules 1 1 s1 s1 c2 h2 hv2, ← hs2,
      generateLoop_step_accepted g rules 0 2 s2 s2 c3 h3 hv3]
  · rw [hs1]; simp [appendRetry]
  · rw [hs2]; simp [appendRetry]

/-- Witness for C4: the staged generator `gen3` is rejected twice and
accepted on its third attempt, returning the conforming header. -/
theorem c4_witness :
    generateCommitMessage gen3 COMMITLINT_RULES (String.toList "d") Lang.en =
      (.ok (String.toList "feat: add retry loop"), 3) ∧
    w4s1.length = w4s0.length + 2 ∧ w4s2.length = w4s1.length + 2 :=
  c4_third_attempt_converges gen3 COMMITLINT_RULES (String.toList "d") Lang.en
    [] [] (String.toList "feat: add retry loop") w4s0 w4s1 w4s2
    rfl rfl (by decide) rfl rfl (by decide) rfl (by decide) (by decide)

/-- The length of a truncated text: unchanged within the limit, otherwise
the limit plus the 13 characters of the marker. -/
lemma length_truncate (t : Text) (n : Nat) :
    (truncate t n).length = if t.length ≤ n then t.length else n + 13 := by
  unfold truncate
  split_ifs with h
  · rfl
  · have hmark : truncationMarker.length = 13 := by decide
    simp only [List.length_append, List.length_take, hmark]
    omega

/-- Dropping leading whitespace from a run of `a` characters is the
identity. -/
lemma dropWhile_ws_replicate_a (n : Nat) :
    (List.replicate n 'a').dropWhile isJsWs = List.replicate n 'a' := by
  cases n with
  | zero => rfl
  | succ m => simp [List.replicate_succ, List.dropWhile_cons, isJsWs]

/-- Trimming a run of `a` characters is the identity. -/
lemma jsTrim_replicate_a (n : Nat) :
    jsTrim (List.replicate n 'a') = List.replicate n 'a' := by
  unfold jsTrim
  rw [dropWhile_ws_replicate_a, List.reverse_replicate, dropWhile_ws_replicate_a,
    List.reverse_replicate]

/-- The assembled change text over an empty status, an empty staged diff and
the 20,100-character unstaged diff has 20,166 characters. -/
lemma assembled_big_length :
    (assembledDiffText [] [] bigUnstaged).length = 20166 := by
  have hb : jsTrim bigUnstaged = bigUnstaged := jsTrim_replicate_a 20100
  have hblen : bigUnstaged.length = 20100 := by
    unfold bigUnstaged
    rw [List.length_replicate]
  have hbne : bigUnstaged ≠ [] := by
    intro hcontra
    have hlen := congrArg List.length hcontra
    rw [hblen, List.length_nil] at hlen
    exact absurd hlen (by omega)
  have hjt : jsTrim ([] : Text) = [] := rfl
  have hoe1 : orEmpty (jsTrim ([] : Text)) = String.toList "(empty)" := rfl
  have hoe2 : orEmpty (jsTrim bigUnstaged) = bigUnstaged := by
    rw [hb]
    unfold orEmpty
    rw [if_neg hbne]
  have h1 : (String.toList "## git status --short").length = 21 := by decide
  have h2 : (String.toList "## git diff --cached").length = 20 := by decide
  have h3 : (String.toList "## git diff").length = 11 := by decide
  have h4 : (String.toList "(empty)").length = 7 := by decide
  unfold assembledDiffText
  rw [hoe2, hoe1, hjt]
  simp only [joinSep, List.length_append, h1, h2, h3, h4, hblen, List.length_nil,
    List.length_cons]

/-- Counterexample to C1: with an oversized change set the transmitted
payload has 20,013 characters, exceeding the 20,000-character cap, because
the marker is appended after slicing. -/
theorem c1_counterexample :
    (buildDiffPayload [] [] bigUnstaged).length = DIFF_CHAR_LIMIT + 13 ∧
    DIFF_CHAR_LIMIT < (buildDiffPayload [] [] bigUnstaged).length := by
  have hlen : (buildDiffPayload [] [] bigUnstaged).length = DIFF_CHAR_LIMIT + 13 := by
    unfold buildDiffPayload
    rw [length_truncate, assembled_big_length,
      if_neg (by unfold DIFF_CHAR_LIMIT; omega)]
  exact ⟨hlen, by rw [hlen]; omega⟩

/-- C1 as amended: the payload equals the assembled text when that text is
within the 20,000-character cap; an oversized assembled text is sliced to
20,000 characters with the trailing literal marker appended; and the
transmitted payload never exceeds the cap plus the 13-character marker. -/
theorem c1_payload_cap (statusOut stagedOut unstagedOut : Text) :
    (buildDiffPayload statusOut stagedOut unstagedOut).length ≤
      DIFF_CHAR_LIMIT + truncationMarker.length ∧
    ((assembledDiffText statusOut stagedOut unstagedOut).length ≤ DIFF_CHAR_LIMIT →
      buildDiffPayload statusOut stagedOut unstagedOut =
        assembledDiffText statusOut stagedOut unstagedOut) ∧
    (DIFF_CHAR_LIMIT < (assembledDiffText statusOut stagedOut unstagedOut).length →
      buildDiffPayload statusOut stagedOut unstagedOut =
        (assembledDiffText statusOut stagedOut unstagedOut).take DIFF_CHAR_LIMIT
          ++ truncationMarker) := by
  have hmark : truncationMarker.length = 13 := by decide
  refine ⟨?_, ?_, ?_⟩
  · unfold buildDiffPayload
    rw [length_truncate, hmark]
    split_ifs with h
    · omega
    · omega
  · intro h
    unfold buildDiffPayload truncate
    rw [if_pos h]
  · intro h
    unfold buildDiffPayload truncate
    rw [if_neg (by omega)]

/-- Witness for C1 as amended: an empty change set passes through whole and
respects the marker-extended cap. -/
theorem c1_witness :
    (buildDiffPayload [] [] []).length ≤ DIFF_CHAR_LIMIT + truncationMarker.length ∧
    buildDiffPayload [] [] [] = assembledDiffText [] [] [] :=
  ⟨(c1_payload_cap [] [] []).1, (c1_payload_cap [] [] []).2.1 (by decide)⟩

/-- Counterexample to C2: under an absent rule source the validator accepts
a header that the hardcoded fallback grammar rejects, so validation is not
performed against the fallback rules. -/
theorem c2_counterexample :
    validateConventionalCommit emptyRuleSource (String.toList "totally wrong header") = [] ∧
    validateConventionalCommit fallbackRuleSource (String.toList "totally wrong header") ≠ [] := by
  decide

/-- C2 as amended: when the external rule source is malformed or absent the
prompt constants default to the hardcoded fallback (max header length 100
and the fallback type list), but the validator hands the raw rule source to
the lint engine unchanged, so under an absent source every non-empty
candidate is accepted rather than checked against the fallback grammar. -/
theorem c2_fallback_constants_only (message : Text) (h : message ≠ []) :
    HEADER_MAX_LENGTH emptyRuleSource = 100 ∧
    CONVENTIONAL_TYPES emptyRuleSource = fallbackTypesText ∧
    validateConventionalCommit emptyRuleSource message = [] := by
  refine ⟨rfl, rfl, ?_⟩
  simp [validateConventionalCommit, lintCommitMessage, emptyRuleSource, h]

/-- Witness for C2 as amended at the one-character message `x`. -/
theorem c2_witness :
    HEADER_MAX_LENGTH emptyRuleSource = 100 ∧
    CONVENTIONAL_TYPES emptyRuleSource = fallbackTypesText ∧
    validateConventionalCommit emptyRuleSource (String.toList "x") = [] :=
  c2_fallback_constants_only (String.toList "x") (by decide)

end GM
